import Mathlib

/-!
Verification development for the ivy backend-dispatch and conversion core.

The Python sources are shallowly embedded: runtime values that flow through
the conversion layer become the inductive type `Val`; a backend-native array
becomes the structure `NativeArr`; the conversion helpers of
`ivy/array/conversions.py` and `ivy/core/general.py` become recursive Lean
functions over `Val`.  Parts of the repository whose implementation files are
absent from the source tree (the framework handler, the classifier predicates
`ivy.is_native_array` and `ivy.is_variable`, and `ContainerBase`) are modelled
from the specification and are marked as such in their doc comments.
-/

/-- A backend-native array value, as the conversion layer sees it: the owner
backend, the introspectable shape, dtype and device, the stored payload
(element values, modelled as integers), and whether the backend reports the
value as differentiable and trainable. -/
structure NativeArr where
  framework : String
  shape : List Nat
  dtypeName : String
  device : String
  vals : List Int
  trainable : Bool
deriving DecidableEq, Repr

/-- A Python runtime value as seen by the conversion layer of
`ivy/array/conversions.py` and `ivy/core/general.py`:
a backend-native array, any other non-array object (identified by a tag),
a wrapper instance (`ivy.Array` when `isVar = false`, `ivy.Variable` when
`isVar = true`, owning its payload `data`), a Container (an ordered string-keyed
mapping, whose class lives in the absent `ivy/container/base.py`), or a plain
Python list, tuple or dict. -/
inductive Val where
  | native (a : NativeArr)
  | other (tag : Nat)
  | arr (isVar : Bool) (data : Val)
  | cont (kvs : List (String × Val))
  | vlist (xs : List Val)
  | vtuple (xs : List Val)
  | vdict (kvs : List (String × Val))

/-- Modelled from the spec: `ivy.is_native_array` (its implementation is not
under src/); spec 4.2: true iff the runtime type of the value is the native
array type of the resolved backend. -/
def is_native_array (x : Val) : Bool :=
  match x with
  | .native _ => true
  | _ => false

/-- Modelled from the spec: `ivy.is_variable` with `exclusive=True` (its
implementation is not under src/); spec 4.2: true iff the value is
native-array-like and the backend reports it as differentiable, exclusively a
trainable value and not simultaneously a plain array. -/
def is_variable_exclusive (x : Val) : Bool :=
  match x with
  | .native a => a.trainable
  | _ => false

/-- Modelled from the spec: `ivy.is_variable` without `exclusive` (used by the
`Variable.__init__` assertion); spec 4.2: true iff the value is
native-array-like and the backend reports it as differentiable. -/
def is_variable (x : Val) : Bool :=
  match x with
  | .native a => a.trainable
  | _ => false

/-- The boolean outcome of `ivy.is_array` (`ivy/core/general.py` lines
162 to 176) on a value: the resolved backend reports whether the value is its
native array type; when backend resolution fails the predicate returns false.
Either way the call answers true exactly on backend-native values.  The
resolution-sensitive embedding with the explicit backend stack appears below
as `is_array_resolved`. -/
def ivy_is_array (x : Val) : Bool :=
  match x with
  | .native _ => true
  | _ => false

mutual

/-- `_to_native` of `ivy/array/conversions.py` (lines 15 to 21): an
`ivy.Array` wrapper recurses into its owned payload, a Container delegates to
`Container.to_native` (absent from src/, modelled from spec 4.5: the nested
conversion applied leaf-wise, returning the same tree shape), everything else
is returned unchanged. -/
def toNativeConv : Val → Val
  | .arr _ d => toNativeConv d
  | .cont kvs => .cont (toNativeConvKVs kvs)
  | x => x

/-- Leaf-wise traversal of a Container body for `Container.to_native`. -/
def toNativeConvKVs : List (String × Val) → List (String × Val)
  | [] => []
  | (k, v) :: rest => (k, toNativeConv v) :: toNativeConvKVs rest

end

mutual

/-- `_to_ivy` of `ivy/array/conversions.py` (lines 24 to 31): wrapper
instances are returned unchanged, a Container delegates to `Container.to_ivy`
(absent from src/, modelled from spec 4.5 leaf-wise), and otherwise the value
becomes an `ivy.Variable` wrapper when the classifier reports exclusive
trainability, an `ivy.Array` wrapper when it is a native array, or is returned
unchanged.  The wrapper constructions are written directly because the guards
`is_variable_exclusive` and `is_native_array` imply the constructor assertions
`is_variable` and `is_array`. -/
def toIvyConv : Val → Val
  | .arr isVar d => .arr isVar d
  | .cont kvs => .cont (toIvyConvKVs kvs)
  | x =>
    if is_variable_exclusive x then .arr true x
    else if is_native_array x then .arr false x
    else x

/-- Leaf-wise traversal of a Container body for `Container.to_ivy`. -/
def toIvyConvKVs : List (String × Val) → List (String × Val)
  | [] => []
  | (k, v) :: rest => (k, toIvyConv v) :: toIvyConvKVs rest

end

/-- `_to_native` of `ivy/core/general.py` (lines 25 to 27):
`x.data if isinstance(x, ivy.Array) else x` — only wrapper instances are
unwrapped; Containers and every other value pass through unchanged. -/
def toNativeCore (x : Val) : Val :=
  match x with
  | .arr _ d => d
  | x => x

/-- `_to_ivy` of `ivy/core/general.py` (lines 30 to 34): wrapper instances are
returned unchanged, and otherwise the value becomes a `Variable` when
exclusively trainable, an `Array` when `ivy.is_array` answers true, or is
returned unchanged. -/
def toIvyCore (x : Val) : Val :=
  match x with
  | .arr isVar d => .arr isVar d
  | x =>
    if is_variable_exclusive x then .arr true x
    else if ivy_is_array x then .arr false x
    else x

mutual

/-- `nested_map` of `ivy/core/general.py` (lines 40 to 60): tuples, lists and
dicts are traversed to their leaves, rebuilding the same container kind in the
same order with the same keys; any other value has `fn` applied to it.
Containers are treated as leaves here (the Container class is absent from
src/, so no dict-subclass traversal is modelled). -/
def nested_map (fn : Val → Val) : Val → Val
  | .vtuple xs => .vtuple (nested_mapList fn xs)
  | .vlist xs => .vlist (nested_mapList fn xs)
  | .vdict kvs => .vdict (nested_mapKVs fn kvs)
  | x => fn x

/-- Elementwise traversal for `nested_map` over list and tuple bodies. -/
def nested_mapList (fn : Val → Val) : List Val → List Val
  | [] => []
  | x :: xs => nested_map fn x :: nested_mapList fn xs

/-- Entrywise traversal for `nested_map` over dict bodies, keeping keys and
order. -/
def nested_mapKVs (fn : Val → Val) : List (String × Val) → List (String × Val)
  | [] => []
  | (k, v) :: rest => (k, nested_map fn v) :: nested_mapKVs fn rest

end

/-- `to_native` of `ivy/core/general.py` (lines 100 to 117): apply
`_to_native` through `nested_map` when `nested` is set, else directly. -/
def to_native_core (x : Val) (nested : Bool) : Val :=
  if nested then nested_map toNativeCore x else toNativeCore x

/-- `args_to_native` of `ivy/core/general.py` (lines 120 to 134): the
positional-argument tuple and the keyword-argument dict are each converted by
`nested_map(_, _to_native)` independently. -/
def args_to_native_core (args : List Val) (kwargs : List (String × Val)) :
    Val × Val :=
  (nested_map toNativeCore (.vtuple args), nested_map toNativeCore (.vdict kwargs))

/-- A Python-level error raised by embedded code. -/
inductive PyErr where
  | typeError
  | assertionError
deriving DecidableEq, Repr

/-- `to_native` of `ivy/array/conversions.py` (lines 81 to 102): when `nested`
is set the source calls `ivy.nested_map(x, _to_native, include_derived)` with
three positional arguments, but the only `nested_map` in the repository
(`ivy/core/general.py` line 40) accepts exactly two, so the call raises
`TypeError`; the non-nested path applies `_to_native` directly. -/
def to_native_conv (x : Val) (nested : Bool) (_includeDerived : Bool) :
    Except PyErr Val :=
  if nested then .error .typeError
  else .ok (toNativeConv x)

/-- `args_to_native` of `ivy/array/conversions.py` (lines 105 to 123): both
conversions unconditionally call `ivy.nested_map(x, _to_native,
include_derived)` with three positional arguments against the two-parameter
`nested_map` of `ivy/core/general.py`, so the call raises `TypeError`. -/
def args_to_native_conv (_args : List Val) (_kwargs : List (String × Val))
    (_includeDerived : Bool) : Except PyErr (Val × Val) :=
  .error .typeError

/-- The container skeleton of a value: which of list, tuple or dict shape the
value has at every level that `nested_map` traverses, with dict keys and
entry order retained; every other value is a leaf. -/
inductive Skel where
  | leaf
  | tup (xs : List Skel)
  | lst (xs : List Skel)
  | dct (kvs : List (String × Skel))

mutual

/-- Skeleton of a value under the `nested_map` traversal of
`ivy/core/general.py`. -/
def skel : Val → Skel
  | .vtuple xs => .tup (skelList xs)
  | .vlist xs => .lst (skelList xs)
  | .vdict kvs => .dct (skelKVs kvs)
  | _ => .leaf

/-- Skeletons of the elements of a list or tuple body. -/
def skelList : List Val → List Skel
  | [] => []
  | x :: xs => skel x :: skelList xs

/-- Skeletons of the entries of a dict body, keeping keys and order. -/
def skelKVs : List (String × Val) → List (String × Skel)
  | [] => []
  | (k, v) :: rest => (k, skel v) :: skelKVs rest

end

/-- Whether a value is a leaf for the `nested_map` traversal: anything that is
not a plain list, tuple or dict. -/
def isLeafVal : Val → Bool
  | .vtuple _ => false
  | .vlist _ => false
  | .vdict _ => false
  | _ => true

mutual

/-- The leaves of a value in the depth-first order that `nested_map`
visits them. -/
def leavesOf : Val → List Val
  | .vtuple xs => leavesList xs
  | .vlist xs => leavesList xs
  | .vdict kvs => leavesKVs kvs
  | x => [x]

/-- Leaves of a list or tuple body in order. -/
def leavesList : List Val → List Val
  | [] => []
  | x :: xs => leavesOf x ++ leavesList xs

/-- Leaves of a dict body in entry order. -/
def leavesKVs : List (String × Val) → List Val
  | [] => []
  | (_, v) :: rest => leavesOf v ++ leavesKVs rest

end

/-- A leaf value has the leaf skeleton. -/
theorem skel_of_leaf (z : Val) (h : isLeafVal z = true) : skel z = .leaf := by
  cases z <;> simp [isLeafVal] at h <;> simp [skel]

/-- A leaf value is its own single leaf. -/
theorem leavesOf_of_leaf (z : Val) (h : isLeafVal z = true) : leavesOf z = [z] := by
  cases z <;> simp [isLeafVal] at h <;> simp [leavesOf]

mutual

/-- `nested_map` keeps the traversal skeleton of its input whenever the mapped
function sends every leaf of the input to a leaf: the same list, tuple and
dict shape, the same keys and the same entry order. -/
theorem nested_map_skel (fn : Val → Val) (x : Val)
    (hf : ∀ y ∈ leavesOf x, isLeafVal (fn y) = true) :
    skel (nested_map fn x) = skel x := by
  match x with
  | .vtuple xs =>
      have hx : ∀ y ∈ leavesList xs, isLeafVal (fn y) = true := by
        intro y hy; exact hf y (by simp [leavesOf]; exact hy)
      simp [nested_map, skel, nested_map_skelList fn xs hx]
  | .vlist xs =>
      have hx : ∀ y ∈ leavesList xs, isLeafVal (fn y) = true := by
        intro y hy; exact hf y (by simp [leavesOf]; exact hy)
      simp [nested_map, skel, nested_map_skelList fn xs hx]
  | .vdict kvs =>
      have hx : ∀ y ∈ leavesKVs kvs, isLeafVal (fn y) = true := by
        intro y hy; exact hf y (by simp [leavesOf]; exact hy)
      simp [nested_map, skel, nested_map_skelKVs fn kvs hx]
  | .native a =>
      have h1 : nested_map fn (.native a) = fn (.native a) := by simp [nested_map]
      have h2 : Val.native a ∈ leavesOf (Val.native a) := by simp [leavesOf]
      rw [h1, skel_of_leaf _ (hf _ h2), skel_of_leaf _ (by simp [isLeafVal])]
  | .other t =>
      have h1 : nested_map fn (.other t) = fn (.other t) := by simp [nested_map]
      have h2 : Val.other t ∈ leavesOf (Val.other t) := by simp [leavesOf]
      rw [h1, skel_of_leaf _ (hf _ h2), skel_of_leaf _ (by simp [isLeafVal])]
  | .arr v d =>
      have h1 : nested_map fn (.arr v d) = fn (.arr v d) := by simp [nested_map]
      have h2 : Val.arr v d ∈ leavesOf (Val.arr v d) := by simp [leavesOf]
      rw [h1, skel_of_leaf _ (hf _ h2), skel_of_leaf _ (by simp [isLeafVal])]
  | .cont kvs =>
      have h1 : nested_map fn (.cont kvs) = fn (.cont kvs) := by simp [nested_map]
      have h2 : Val.cont kvs ∈ leavesOf (Val.cont kvs) := by simp [leavesOf]
      rw [h1, skel_of_leaf _ (hf _ h2), skel_of_leaf _ (by simp [isLeafVal])]

/-- Skeleton preservation for list and tuple bodies. -/
theorem nested_map_skelList (fn : Val → Val) (xs : List Val)
    (hf : ∀ y ∈ leavesList xs, isLeafVal (fn y) = true) :
    skelList (nested_mapList fn xs) = skelList xs := by
  match xs with
  | [] => rfl
  | x :: rest =>
      have hx : ∀ y ∈ leavesOf x, isLeafVal (fn y) = true := by
        intro y hy; exact hf y (by simp [leavesList]; exact Or.inl hy)
      have hr : ∀ y ∈ leavesList rest, isLeafVal (fn y) = true := by
        intro y hy; exact hf y (by simp [leavesList]; exact Or.inr hy)
      simp [nested_mapList, skelList, nested_map_skel fn x hx,
        nested_map_skelList fn rest hr]

/-- Skeleton preservation for dict bodies. -/
theorem nested_map_skelKVs (fn : Val → Val) (kvs : List (String × Val))
    (hf : ∀ y ∈ leavesKVs kvs, isLeafVal (fn y) = true) :
    skelKVs (nested_mapKVs fn kvs) = skelKVs kvs := by
  match kvs with
  | [] => rfl
  | (k, v) :: rest =>
      have hx : ∀ y ∈ leavesOf v, isLeafVal (fn y) = true := by
        intro y hy; exact hf y (by simp [leavesKVs]; exact Or.inl hy)
      have hr : ∀ y ∈ leavesKVs rest, isLeafVal (fn y) = true := by
        intro y hy; exact hf y (by simp [leavesKVs]; exact Or.inr hy)
      simp [nested_mapKVs, skelKVs, nested_map_skel fn v hx,
        nested_map_skelKVs fn rest hr]

end

mutual

/-- `nested_map` converts exactly the leaves, in traversal order, whenever the
mapped function sends every leaf of the input to a leaf. -/
theorem nested_map_leaves (fn : Val → Val) (x : Val)
    (hf : ∀ y ∈ leavesOf x, isLeafVal (fn y) = true) :
    leavesOf (nested_map fn x) = (leavesOf x).map fn := by
  match x with
  | .vtuple xs =>
      have hx : ∀ y ∈ leavesList xs, isLeafVal (fn y) = true := by
        intro y hy; exact hf y (by simp [leavesOf]; exact hy)
      simp [nested_map, leavesOf, nested_map_leavesList fn xs hx]
  | .vlist xs =>
      have hx : ∀ y ∈ leavesList xs, isLeafVal (fn y) = true := by
        intro y hy; exact hf y (by simp [leavesOf]; exact hy)
      simp [nested_map, leavesOf, nested_map_leavesList fn xs hx]
  | .vdict kvs =>
      have hx : ∀ y ∈ leavesKVs kvs, isLeafVal (fn y) = true := by
        intro y hy; exact hf y (by simp [leavesOf]; exact hy)
      simp [nested_map, leavesOf, nested_map_leavesKVs fn kvs hx]
  | .native a =>
      have h1 : nested_map fn (.native a) = fn (.native a) := by simp [nested_map]
      have h2 : Val.native a ∈ leavesOf (Val.native a) := by simp [leavesOf]
      rw [h1, leavesOf_of_leaf _ (hf _ h2), leavesOf_of_leaf _ (by simp [isLeafVal])]
      simp
  | .other t =>
      have h1 : nested_map fn (.other t) = fn (.other t) := by simp [nested_map]
      have h2 : Val.other t ∈ leavesOf (Val.other t) := by simp [leavesOf]
      rw [h1, leavesOf_of_leaf _ (hf _ h2), leavesOf_of_leaf _ (by simp [isLeafVal])]
      simp
  | .arr v d =>
      have h1 : nested_map fn (.arr v d) = fn (.arr v d) := by simp [nested_map]
      have h2 : Val.arr v d ∈ leavesOf (Val.arr v d) := by simp [leavesOf]
      rw [h1, leavesOf_of_leaf _ (hf _ h2), leavesOf_of_leaf _ (by simp [isLeafVal])]
      simp
  | .cont kvs =>
      have h1 : nested_map fn (.cont kvs) = fn (.cont kvs) := by simp [nested_map]
      have h2 : Val.cont kvs ∈ leavesOf (Val.cont kvs) := by simp [leavesOf]
      rw [h1, leavesOf_of_leaf _ (hf _ h2), leavesOf_of_leaf _ (by simp [isLeafVal])]
      simp

/-- Leaf conversion for list and tuple bodies. -/
theorem nested_map_leavesList (fn : Val → Val) (xs : List Val)
    (hf : ∀ y ∈ leavesList xs, isLeafVal (fn y) = true) :
    leavesList (nested_mapList fn xs) = (leavesList xs).map fn := by
  match xs with
  | [] => simp [nested_mapList, leavesList]
  | x :: rest =>
      have hx : ∀ y ∈ leavesOf x, isLeafVal (fn y) = true := by
        intro y hy; exact hf y (by simp [leavesList]; exact Or.inl hy)
      have hr : ∀ y ∈ leavesList rest, isLeafVal (fn y) = true := by
        intro y hy; exact hf y (by simp [leavesList]; exact Or.inr hy)
      simp [nested_mapList, leavesList, nested_map_leaves fn x hx,
        nested_map_leavesList fn rest hr]

/-- Leaf conversion for dict bodies. -/
theorem nested_map_leavesKVs (fn : Val → Val) (kvs : List (String × Val))
    (hf : ∀ y ∈ leavesKVs kvs, isLeafVal (fn y) = true) :
    leavesKVs (nested_mapKVs fn kvs) = (leavesKVs kvs).map fn := by
  match kvs with
  | [] => simp [nested_mapKVs, leavesKVs]
  | (k, v) :: rest =>
      have hx : ∀ y ∈ leavesOf v, isLeafVal (fn y) = true := by
        intro y hy; exact hf y (by simp [leavesKVs]; exact Or.inl hy)
      have hr : ∀ y ∈ leavesKVs rest, isLeafVal (fn y) = true := by
        intro y hy; exact hf y (by simp [leavesKVs]; exact Or.inr hy)
      simp [nested_mapKVs, leavesKVs, nested_map_leaves fn v hx,
        nested_map_leavesKVs fn rest hr]

end

mutual

/-- The Container-tree skeleton of a value: Container nodes with their keys in
order; every non-Container value is a leaf. -/
def contSkel : Val → Skel
  | .cont kvs => .dct (contSkelKVs kvs)
  | _ => .leaf

/-- Container-tree skeletons of the entries of a Container body. -/
def contSkelKVs : List (String × Val) → List (String × Skel)
  | [] => []
  | (k, v) :: rest => (k, contSkel v) :: contSkelKVs rest

end

mutual

/-- The leaves of a Container tree in depth-first key order. -/
def contLeaves : Val → List Val
  | .cont kvs => contLeavesKVs kvs
  | x => [x]

/-- Leaves of a Container body in entry order. -/
def contLeavesKVs : List (String × Val) → List Val
  | [] => []
  | (_, v) :: rest => contLeaves v ++ contLeavesKVs rest

end

/-- A Container leaf respecting the data model: a wrapper leaf owns a single
native payload; any non-wrapper, non-Container value may sit at a leaf. -/
def contGoodLeaf : Val → Bool
  | .arr _ d => is_native_array d
  | .cont _ => false
  | _ => true

/-- Converting an admissible Container leaf never produces a Container node. -/
theorem toNativeConv_leaf_not_cont (x : Val) (h : contGoodLeaf x = true) :
    ∀ kvs, toNativeConv x ≠ .cont kvs := by
  match x with
  | .native a => intro kvs; simp [toNativeConv]
  | .other t => intro kvs; simp [toNativeConv]
  | .arr b d =>
      match d with
      | .native a => intro kvs; simp [toNativeConv]
      | .other t => simp [contGoodLeaf, is_native_array] at h
      | .arr c e => simp [contGoodLeaf, is_native_array] at h
      | .cont kvs2 => simp [contGoodLeaf, is_native_array] at h
      | .vlist xs => simp [contGoodLeaf, is_native_array] at h
      | .vtuple xs => simp [contGoodLeaf, is_native_array] at h
      | .vdict kvs2 => simp [contGoodLeaf, is_native_array] at h
  | .cont kvs2 => simp [contGoodLeaf] at h
  | .vlist xs => intro kvs; simp [toNativeConv]
  | .vtuple xs => intro kvs; simp [toNativeConv]
  | .vdict kvs2 => intro kvs; simp [toNativeConv]

/-- A value that is not a Container node is a leaf of the Container tree. -/
theorem contSkel_of_not_cont (z : Val) (h : ∀ kvs, z ≠ .cont kvs) :
    contSkel z = .leaf := by
  match z with
  | .cont kvs => exact absurd rfl (h kvs)
  | .native a => simp [contSkel]
  | .other t => simp [contSkel]
  | .arr b d => simp [contSkel]
  | .vlist xs => simp [contSkel]
  | .vtuple xs => simp [contSkel]
  | .vdict kvs => simp [contSkel]

/-- A value that is not a Container node is its own single Container leaf. -/
theorem contLeaves_of_not_cont (z : Val) (h : ∀ kvs, z ≠ .cont kvs) :
    contLeaves z = [z] := by
  match z with
  | .cont kvs => exact absurd rfl (h kvs)
  | .native a => simp [contLeaves]
  | .other t => simp [contLeaves]
  | .arr b d => simp [contLeaves]
  | .vlist xs => simp [contLeaves]
  | .vtuple xs => simp [contLeaves]
  | .vdict kvs => simp [contLeaves]

mutual

/-- The array-layer `_to_native` keeps the Container-tree skeleton: the
native-leaf equivalent of a Container has the same keys in the same order at
every level. -/
theorem toNativeConv_contSkel (x : Val)
    (h : ∀ y ∈ contLeaves x, contGoodLeaf y = true) :
    contSkel (toNativeConv x) = contSkel x := by
  match x with
  | .cont kvs =>
      have hk : ∀ y ∈ contLeavesKVs kvs, contGoodLeaf y = true := by
        intro y hy; exact h y (by simp [contLeaves]; exact hy)
      simp [toNativeConv, contSkel, toNativeConv_contSkelKVs kvs hk]
  | .native a => simp [toNativeConv]
  | .other t => simp [toNativeConv]
  | .arr b d =>
      have hx : contGoodLeaf (.arr b d) = true := h _ (by simp [contLeaves])
      rw [contSkel_of_not_cont _ (toNativeConv_leaf_not_cont _ hx),
        contSkel_of_not_cont _ (by intro kvs hc; cases hc)]
  | .vlist xs => simp [toNativeConv]
  | .vtuple xs => simp [toNativeConv]
  | .vdict kvs => simp [toNativeConv]

/-- Container-skeleton preservation for Container bodies. -/
theorem toNativeConv_contSkelKVs (kvs : List (String × Val))
    (h : ∀ y ∈ contLeavesKVs kvs, contGoodLeaf y = true) :
    contSkelKVs (toNativeConvKVs kvs) = contSkelKVs kvs := by
  match kvs with
  | [] => rfl
  | (k, v) :: rest =>
      have hx : ∀ y ∈ contLeaves v, contGoodLeaf y = true := by
        intro y hy; exact h y (by simp [contLeavesKVs]; exact Or.inl hy)
      have hr : ∀ y ∈ contLeavesKVs rest, contGoodLeaf y = true := by
        intro y hy; exact h y (by simp [contLeavesKVs]; exact Or.inr hy)
      simp [toNativeConvKVs, contSkelKVs, toNativeConv_contSkel v hx,
        toNativeConv_contSkelKVs rest hr]

end

mutual

/-- The array-layer `_to_native` converts exactly the Container leaves, in
depth-first key order. -/
theorem toNativeConv_contLeaves (x : Val)
    (h : ∀ y ∈ contLeaves x, contGoodLeaf y = true) :
    contLeaves (toNativeConv x) = (contLeaves x).map toNativeConv := by
  match x with
  | .cont kvs =>
      have hk : ∀ y ∈ contLeavesKVs kvs, contGoodLeaf y = true := by
        intro y hy; exact h y (by simp [contLeaves]; exact hy)
      simp [toNativeConv, contLeaves, toNativeConv_contLeavesKVs kvs hk]
  | .native a => simp [toNativeConv, contLeaves]
  | .other t => simp [toNativeConv, contLeaves]
  | .arr b d =>
      have hx : contGoodLeaf (.arr b d) = true := h _ (by simp [contLeaves])
      rw [contLeaves_of_not_cont _ (toNativeConv_leaf_not_cont _ hx),
        contLeaves_of_not_cont _ (by intro kvs hc; cases hc)]
      simp
  | .vlist xs => simp [toNativeConv, contLeaves]
  | .vtuple xs => simp [toNativeConv, contLeaves]
  | .vdict kvs => simp [toNativeConv, contLeaves]

/-- Container-leaf conversion for Container bodies. -/
theorem toNativeConv_contLeavesKVs (kvs : List (String × Val))
    (h : ∀ y ∈ contLeavesKVs kvs, contGoodLeaf y = true) :
    contLeavesKVs (toNativeConvKVs kvs) = (contLeavesKVs kvs).map toNativeConv := by
  match kvs with
  | [] => simp [toNativeConvKVs, contLeavesKVs]
  | (k, v) :: rest =>
      have hx : ∀ y ∈ contLeaves v, contGoodLeaf y = true := by
        intro y hy; exact h y (by simp [contLeavesKVs]; exact Or.inl hy)
      have hr : ∀ y ∈ contLeavesKVs rest, contGoodLeaf y = true := by
        intro y hy; exact h y (by simp [contLeavesKVs]; exact Or.inr hy)
      simp [toNativeConvKVs, contLeavesKVs, toNativeConv_contLeaves v hx,
        toNativeConv_contLeavesKVs rest hr]

end

/-- A sample plain native array on the torch backend. -/
def sampleArr : NativeArr :=
  ⟨"torch", [3], "float32", "cpu:0", [1, 2, 3], false⟩

/-- A sample trainable native array. -/
def sampleVarArr : NativeArr :=
  ⟨"torch", [2], "float32", "gpu:0", [4, 5], true⟩

/-- C1: conversion round-trip — for every backend-native array value x,
`_to_native(_to_ivy(x))` returns the identical native payload x, and applying
`_to_ivy` to a value that is already a wrapper instance returns that same
wrapper rather than wrapping it a second time
(`ivy/array/conversions.py` lines 15 to 31). -/
theorem c1_conversion_round_trip :
    (∀ a : NativeArr, toNativeConv (toIvyConv (.native a)) = .native a) ∧
    (∀ (isVar : Bool) (d : Val), toIvyConv (.arr isVar d) = .arr isVar d) := by
  constructor
  · intro a
    by_cases h : a.trainable <;>
      simp [toIvyConv, is_variable_exclusive, is_native_array, toNativeConv, h]
  · intro isVar d
    simp [toIvyConv]

/-- The Container holding one wrapper leaf that separates the two `_to_native`
implementations. -/
def contWithWrapper : Val := .cont [("a", .arr false (.native sampleArr))]

/-- C2 counterexample: at the Container input `{a: Array(sampleArr)}` the
core-layer `to_native` (`ivy/core/general.py` lines 25 to 27, 100 to 117,
nested=False) returns the Container unchanged, which differs from the
native-leaf equivalent `{a: sampleArr}` that the claim requires (and that the
array-layer `_to_native` produces). -/
theorem c2_counterexample :
    to_native_core contWithWrapper false = contWithWrapper ∧
    toNativeConv contWithWrapper = .cont [("a", .native sampleArr)] ∧
    contWithWrapper ≠ .cont [("a", .native sampleArr)] := by
  refine ⟨rfl, rfl, ?_⟩
  simp [contWithWrapper]

/-- C2 (amended): both `_to_native` implementations return the owned native
payload for a wrapper instance and return every non-wrapper, non-Container
value unchanged; for a Container, the array-layer `_to_native` returns its
native-leaf equivalent (same Container tree, every leaf converted), while the
core-layer `_to_native` returns the Container unchanged. -/
theorem c2_to_native_amended :
    (∀ (isVar : Bool) (a : NativeArr),
      toNativeConv (.arr isVar (.native a)) = .native a) ∧
    (∀ (isVar : Bool) (d : Val), toNativeCore (.arr isVar d) = d) ∧
    (∀ x : Val, (∀ isVar d, x ≠ .arr isVar d) → (∀ kvs, x ≠ .cont kvs) →
      toNativeConv x = x ∧ toNativeCore x = x) ∧
    (∀ kvs, toNativeCore (.cont kvs) = .cont kvs) ∧
    (∀ kvs : List (String × Val),
      (∀ y ∈ contLeaves (.cont kvs), contGoodLeaf y = true) →
      contSkel (toNativeConv (.cont kvs)) = contSkel (.cont kvs) ∧
      contLeaves (toNativeConv (.cont kvs)) =
        (contLeaves (.cont kvs)).map toNativeConv) := by
  refine ⟨?_, ?_, ?_, ?_, ?_⟩
  · intro isVar a; simp [toNativeConv]
  · intro isVar d; simp [toNativeCore]
  · intro x harr hcont
    match x with
    | .native a => exact ⟨by simp [toNativeConv], by simp [toNativeCore]⟩
    | .other t => exact ⟨by simp [toNativeConv], by simp [toNativeCore]⟩
    | .arr b d => exact absurd rfl (harr b d)
    | .cont kvs => exact absurd rfl (hcont kvs)
    | .vlist xs => exact ⟨by simp [toNativeConv], by simp [toNativeCore]⟩
    | .vtuple xs => exact ⟨by simp [toNativeConv], by simp [toNativeCore]⟩
    | .vdict kvs => exact ⟨by simp [toNativeConv], by simp [toNativeCore]⟩
  · intro kvs; simp [toNativeCore]
  · intro kvs h
    exact ⟨toNativeConv_contSkel _ h, toNativeConv_contLeaves _ h⟩

/-- Witness for the amended C2 theorem at concrete inputs. -/
theorem c2_to_native_amended_witness :
    (toNativeConv (.other 7) = .other 7 ∧ toNativeCore (.other 7) = .other 7) ∧
    contSkel (toNativeConv contWithWrapper) = contSkel contWithWrapper :=
  ⟨c2_to_native_amended.2.2.1 (.other 7) (by simp) (by simp),
   (c2_to_native_amended.2.2.2.2 [("a", .arr false (.native sampleArr))]
      (by simp [contLeaves, contLeavesKVs, contGoodLeaf, is_native_array])).1⟩

/-- A leaf of the kind the C3 claim speaks about: a backend-native value or a wrapper
instance owning a native payload. -/
def goodLeaf : Val → Bool
  | .native _ => true
  | .arr _ (.native _) => true
  | _ => false

/-- Converting an admissible leaf with the core `_to_native` yields a leaf. -/
theorem goodLeaf_toNativeCore (y : Val) (h : goodLeaf y = true) :
    isLeafVal (toNativeCore y) = true := by
  match y with
  | .native a => simp [toNativeCore, isLeafVal]
  | .arr b d =>
      match d with
      | .native a => simp [toNativeCore, isLeafVal]
      | .other t => simp [goodLeaf] at h
      | .arr c e => simp [goodLeaf] at h
      | .cont kvs => simp [goodLeaf] at h
      | .vlist xs => simp [goodLeaf] at h
      | .vtuple xs => simp [goodLeaf] at h
      | .vdict kvs => simp [goodLeaf] at h
  | .other t => simp [goodLeaf] at h
  | .cont kvs => simp [goodLeaf] at h
  | .vlist xs => simp [goodLeaf] at h
  | .vtuple xs => simp [goodLeaf] at h
  | .vdict kvs => simp [goodLeaf] at h

/-- C3: nested conversion preserves structure for the core-layer
`to_native(S, nested=True)` and `args_to_native` (`ivy/core/general.py`):
the result keeps the shape, the dict keys and the order of S with every leaf
converted, independently for the positional tuple and the keyword mapping.
The array-layer `to_native(S, nested=True)` and `args_to_native`
(`ivy/array/conversions.py`) instead raise TypeError on every call, because
they pass three positional arguments to the two-parameter `nested_map`. -/
theorem c3_nested_structure (S : Val) (hS : (leavesOf S).all goodLeaf = true) :
    skel (to_native_core S true) = skel S ∧
    leavesOf (to_native_core S true) = (leavesOf S).map toNativeCore ∧
    (∀ (args : List Val) (kwargs : List (String × Val)),
      (leavesOf (Val.vtuple args)).all goodLeaf = true →
      (leavesOf (Val.vdict kwargs)).all goodLeaf = true →
      skel (args_to_native_core args kwargs).1 = skel (.vtuple args) ∧
      leavesOf (args_to_native_core args kwargs).1 =
        (leavesOf (Val.vtuple args)).map toNativeCore ∧
      skel (args_to_native_core args kwargs).2 = skel (.vdict kwargs) ∧
      leavesOf (args_to_native_core args kwargs).2 =
        (leavesOf (Val.vdict kwargs)).map toNativeCore) ∧
    to_native_conv S true false = Except.error .typeError ∧
    (∀ args kwargs incl,
      args_to_native_conv args kwargs incl = Except.error .typeError) := by
  have hf : ∀ y ∈ leavesOf S, isLeafVal (toNativeCore y) = true := by
    intro y hy
    exact goodLeaf_toNativeCore y (List.all_eq_true.mp hS y hy)
  refine ⟨?_, ?_, ?_, rfl, fun _ _ _ => rfl⟩
  · simpa [to_native_core] using nested_map_skel toNativeCore S hf
  · simpa [to_native_core] using nested_map_leaves toNativeCore S hf
  · intro args kwargs h1 h2
    have hf1 : ∀ y ∈ leavesOf (Val.vtuple args), isLeafVal (toNativeCore y) = true := by
      intro y hy
      exact goodLeaf_toNativeCore y (List.all_eq_true.mp h1 y hy)
    have hf2 : ∀ y ∈ leavesOf (Val.vdict kwargs), isLeafVal (toNativeCore y) = true := by
      intro y hy
      exact goodLeaf_toNativeCore y (List.all_eq_true.mp h2 y hy)
    exact ⟨by simpa [args_to_native_core] using
        nested_map_skel toNativeCore (Val.vtuple args) hf1,
      by simpa [args_to_native_core] using
        nested_map_leaves toNativeCore (Val.vtuple args) hf1,
      by simpa [args_to_native_core] using
        nested_map_skel toNativeCore (Val.vdict kwargs) hf2,
      by simpa [args_to_native_core] using
        nested_map_leaves toNativeCore (Val.vdict kwargs) hf2⟩

/-- A sample mixed nesting with a native leaf, a wrapper leaf and a dict. -/
def sampleNest : Val :=
  .vlist [.native sampleArr, .vdict [("w", .arr false (.native sampleVarArr))]]

/-- Witness for the C3 theorem at a concrete mixed nesting. -/
theorem c3_nested_structure_witness :
    (leavesOf sampleNest).all goodLeaf = true ∧
    skel (to_native_core sampleNest true) = skel sampleNest ∧
    to_native_conv sampleNest true false = Except.error .typeError :=
  ⟨rfl, (c3_nested_structure sampleNest rfl).1,
    (c3_nested_structure sampleNest rfl).2.2.2.1⟩

/-- The failure that backend resolution can raise. -/
inductive ResolutionErr where
  | noBackendFound
deriving DecidableEq, Repr

/-- Modelled from the spec: backend resolution
(`framework_handler.current_framework`, whose module is not under src/);
spec 4.1: an argument classifiable as a native array or wrapper instance of a
known backend determines the handle, otherwise the top of the active-backend
stack is used, and resolution fails when the stack is empty and the argument
matches no known backend.  The failure is raised as a ValueError, which is
what the `except ValueError` of `is_array` targets. -/
def resolveFramework (x : Val) (stack : List String) : Except ResolutionErr String :=
  match x with
  | .native a => .ok a.framework
  | .arr _ (.native a) => .ok a.framework
  | _ =>
    match stack with
    | f :: _ => .ok f
    | [] => .error .noBackendFound

/-- Whether a resolution failure is caught by an `except ValueError` clause:
the backend-resolution failure is raised as a ValueError. -/
def ResolutionErr.isValueError : ResolutionErr → Bool
  | .noBackendFound => true

/-- The `is_array` predicate of the resolved backend: true iff the value is
the native array type of that backend. -/
def backendIsArray (fw : String) (x : Val) : Bool :=
  match x with
  | .native a => a.framework == fw
  | _ => false

/-- `is_array` of `ivy/core/general.py` (lines 162 to 176): resolve the
backend from the input and ask it whether the input is an array; an
`except ValueError` clause catches the resolution failure and returns
False. -/
def is_array_resolved (x : Val) (stack : List String) : Except ResolutionErr Bool :=
  match resolveFramework x stack with
  | .ok fw => .ok (backendIsArray fw x)
  | .error e => if e.isValueError then .ok false else .error e

/-- C4: `is_array` never raises when backend resolution fails — every
exception the resolution step can raise is caught and the predicate returns
False; on every input the call returns a boolean rather than propagating an
error. -/
theorem c4_is_array_never_raises :
    (∀ (x : Val) (stack : List String), ∃ b, is_array_resolved x stack = .ok b) ∧
    (∀ (x : Val) (stack : List String),
      resolveFramework x stack = .error .noBackendFound →
      is_array_resolved x stack = .ok false) := by
  constructor
  · intro x stack
    unfold is_array_resolved
    match hr : resolveFramework x stack with
    | .ok fw => exact ⟨backendIsArray fw x, rfl⟩
    | .error e => cases e; exact ⟨false, rfl⟩
  · intro x stack hr
    unfold is_array_resolved
    rw [hr]
    rfl

/-- Witness for the C4 theorem: an unclassifiable input with an empty backend
stack makes resolution fail, and `is_array` still returns False. -/
theorem c4_is_array_never_raises_witness :
    resolveFramework (.other 0) [] = .error .noBackendFound ∧
    is_array_resolved (.other 0) [] = .ok false :=
  ⟨rfl, c4_is_array_never_raises.2 (.other 0) [] rfl⟩

/-- A Python scalar as float comparisons see it: a finite value, one of the
two infinities, or nan. -/
inductive PyScalar where
  | num (q : Rat)
  | pinf
  | ninf
  | nan
deriving DecidableEq, Repr

/-- Python `==` between such scalars: nan compares unequal to everything,
itself included; each infinity equals only itself; finite values compare by
value. -/
def scalarEq : PyScalar → PyScalar → Bool
  | .num a, .num b => a == b
  | .pinf, .pinf => true
  | .ninf, .ninf => true
  | _, _ => false

/-- `value_is_nan` of `ivy/core/general.py` (lines 919 to 935), on an input
that is already a scalar (for a single-element array the source first extracts
its held scalar with `to_scalar`).  Python operator precedence parses the
second test `include_infs and x_scalar == INF or x_scalar == -INF` as
`(include_infs and x_scalar == INF) or (x_scalar == -INF)`. -/
def value_is_nan (x : PyScalar) (includeInfs : Bool) : Bool :=
  if !(scalarEq x x) then true
  else if (includeInfs && scalarEq x .pinf) || scalarEq x .ninf then true
  else false

/-- C10: `value_is_nan(x, include_infs)` is True exactly when x is nan, or x
is positive infinity and `include_infs` is set, or x is negative infinity —
the negative-infinity case answers True regardless of the flag. -/
theorem c10_value_is_nan (x : PyScalar) (includeInfs : Bool) :
    value_is_nan x includeInfs =
      ((x == PyScalar.nan) || (includeInfs && (x == PyScalar.pinf)) ||
        (x == PyScalar.ninf)) := by
  cases x <;> cases includeInfs <;> simp [value_is_nan, scalarEq]

/-- The ivy exception classes of `ivy/utils/exceptions.py`: the base
IvyException and its subclasses, plus IvyNotImplementedException (which
subclasses NotImplementedError, not IvyException). -/
inductive IvyFam where
  | base
  | backendExc
  | notImplemented
  | err
  | indexErr
  | attributeErr
  | valueErr
  | broadcastShapeErr
  | dtypePromotionErr
deriving DecidableEq, Repr

/-- A Python exception as the handler boundary sees it: either a builtin or
backend-native exception identified by its class name, or an ivy exception of
one of the families above, carrying its message and its optional recorded
native error. -/
inductive PyExc where
  | builtin (className : String) (msg : String)
  | ivy (fam : IvyFam) (msg : String) (nativeError : Option PyExc)

/-- The Python class name of an ivy exception family. -/
def famClassName : IvyFam → String
  | .base => "IvyException"
  | .backendExc => "IvyBackendException"
  | .notImplemented => "IvyNotImplementedException"
  | .err => "IvyError"
  | .indexErr => "IvyIndexError"
  | .attributeErr => "IvyAttributeError"
  | .valueErr => "IvyValueError"
  | .broadcastShapeErr => "IvyBroadcastShapeError"
  | .dtypePromotionErr => "IvyDtypePromotionError"

/-- `str(e)`: the message of an exception. -/
def strOfExc : PyExc → String
  | .builtin _ m => m
  | .ivy _ m _ => m

/-- `e.__class__.__name__`. -/
def classNameOf : PyExc → String
  | .builtin c _ => c
  | .ivy fam _ _ => famClassName fam

/-- A message argument to an ivy exception constructor: a string or an
exception object. -/
inductive Msg where
  | str (s : String)
  | exc (e : PyExc)

/-- `str` applied to a message argument. -/
def msgToString : Msg → String
  | .str s => s
  | .exc e => strOfExc e

/-- `delimiter.join(parts)`. -/
def joinWith (delim : String) : List String → String
  | [] => ""
  | [s] => s
  | s :: rest => s ++ delim ++ joinWith delim rest

/-- `_add_native_error` of `ivy/utils/exceptions.py` (lines 31 to 64): when
the last message is an exception object, replace it with its text — for an
IvyException instance carrying a recorded native error, or for a non-ivy
exception, the native error text is used, with its class name inserted first
when the trace mode is full; an IvyException instance without a recorded
native error is simply stringified.  IvyNotImplementedException is not an
IvyException instance, so it takes the non-ivy branch. -/
def add_native_error (traceMode : String) (default : List Msg) : List Msg :=
  match default.getLast? with
  | some (.exc ex) =>
    match ex with
    | .ivy fam _ maybeNative =>
      if fam == .notImplemented then
        if traceMode == "full" then
          default.dropLast ++ [.str (classNameOf ex), .str (strOfExc ex)]
        else default.dropLast ++ [.str (strOfExc ex)]
      else
        match maybeNative with
        | some ne =>
          if traceMode == "full" then
            default.dropLast ++ [.str (classNameOf ne), .str (strOfExc ne)]
          else default.dropLast ++ [.str (strOfExc ne)]
        | none => default.dropLast ++ [.str (strOfExc ex)]
    | .builtin c m =>
      if traceMode == "full" then
        default.dropLast ++ [.str c, .str m]
      else default.dropLast ++ [.str m]
  | _ => default

/-- `_combine_messages` of `ivy/utils/exceptions.py` (lines 67 to 79): without
`include_backend` the messages are joined with spaces; with it, the current
backend name (defaulting to numpy when unset) is put first, the native error
is folded in by `_add_native_error`, and the parts are joined with a colon
delimiter. -/
def combine_messages (backendName traceMode : String) (messages : List Msg)
    (includeBackend : Bool) : String :=
  if !includeBackend then joinWith " " (messages.map msgToString)
  else
    let d0 : List Msg :=
      .str (if backendName == "" then "numpy" else backendName) :: messages
    joinWith ": " ((add_native_error traceMode d0).map msgToString)

/-- `IvyException.__init__` (and the identical subclass constructors) of
`ivy/utils/exceptions.py` (lines 83 to 97): the native error is recorded only
when the constructor receives exactly one message that is an exception object
and `include_backend` is not set; otherwise the message is assembled by
`_combine_messages` and no native error is recorded. -/
def ivyExceptionInit (fam : IvyFam) (messages : List Msg) (includeBackend : Bool)
    (backendName traceMode : String) : PyExc :=
  match messages, includeBackend with
  | [.exc ex], false => .ivy fam (strOfExc ex) (some ex)
  | _, _ =>
    .ivy fam (combine_messages backendName traceMode messages includeBackend) none

/-- What a call through the `handle_exceptions` boundary raises: either the
original exception re-raised unchanged, or a newly built exception whose
implicitly chained context is the original exception. -/
inductive RaisedOut where
  | sameExc (e : PyExc)
  | chained (raised : PyExc) (context : PyExc)

/-- Test for the first except clause: IvyNotImplementedException. -/
def isNotImplementedExc : PyExc → Bool
  | .ivy .notImplemented _ _ => true
  | _ => false

/-- Test for the IvyError clause. -/
def isIvyErrExc : PyExc → Bool
  | .ivy .err _ _ => true
  | _ => false

/-- Test for the IvyBroadcastShapeError clause. -/
def isBroadcastExc : PyExc → Bool
  | .ivy .broadcastShapeErr _ _ => true
  | _ => false

/-- Test for the IvyDtypePromotionError clause. -/
def isDtypePromotionExc : PyExc → Bool
  | .ivy .dtypePromotionErr _ _ => true
  | _ => false

/-- Test for the `(IndexError, IvyIndexError)` clause. -/
def isIndexExc : PyExc → Bool
  | .builtin c _ => c == "IndexError"
  | .ivy .indexErr _ _ => true
  | _ => false

/-- Test for the `(AttributeError, IvyAttributeError)` clause. -/
def isAttributeExc : PyExc → Bool
  | .builtin c _ => c == "AttributeError"
  | .ivy .attributeErr _ _ => true
  | _ => false

/-- Test for the `(ValueError, IvyValueError)` clause. -/
def isValueExc : PyExc → Bool
  | .builtin c _ => c == "ValueError"
  | .ivy .valueErr _ _ => true
  | _ => false

/-- The raise performed by `_handle_exceptions` of `ivy/utils/exceptions.py`
(lines 160 to 200) when the wrapped call raises `e`: the except clauses are
tried in source order; IvyNotImplementedException is re-raised unchanged, and
every other clause raises a fresh wrapper exception built from the operation
name and the native message with `include_backend=True`, implicitly chaining
the original exception. -/
def handle_exceptions_raise (fnName backendName traceMode : String)
    (e : PyExc) : RaisedOut :=
  let wrap := fun fam => RaisedOut.chained
    (ivyExceptionInit fam [.str fnName, .str (strOfExc e)] true backendName
      traceMode) e
  if isNotImplementedExc e then .sameExc e
  else if isIvyErrExc e then wrap .err
  else if isBroadcastExc e then wrap .broadcastShapeErr
  else if isDtypePromotionExc e then wrap .dtypePromotionErr
  else if isIndexExc e then wrap .indexErr
  else if isAttributeExc e then wrap .attributeErr
  else if isValueExc e then wrap .valueErr
  else wrap .backendExc

/-- The `handle_exceptions` boundary applied to the outcome of the wrapped
call: values pass through, exceptions are transformed as above. -/
def handle_exceptions {α : Type} (fnName backendName traceMode : String) :
    Except PyExc α → Except RaisedOut α
  | .ok v => .ok v
  | .error e => .error (handle_exceptions_raise fnName backendName traceMode e)

/-- The wrapper family of the exception a boundary call raised, when a new
wrapper exception was raised. -/
def RaisedOut.famOf : RaisedOut → Option IvyFam
  | .chained (.ivy fam _ _) _ => some fam
  | .chained (.builtin _ _) _ => none
  | .sameExc _ => none

/-- The recorded native error of the raised wrapper exception. -/
def RaisedOut.nativeErrorOf : RaisedOut → Option PyExc
  | .chained (.ivy _ _ ne) _ => ne
  | _ => none

/-- C5 counterexample: two backend-native exceptions raised inside the same
wrapped operation are re-raised as two different wrapper exception types
(IvyIndexError for an IndexError, IvyValueError for a ValueError), so the
boundary does not re-raise a single wrapper exception type; moreover the
raised wrapper records no native error of its own (the original exception
survives only as the implicitly chained context). -/
theorem c5_counterexample :
    RaisedOut.famOf (handle_exceptions_raise "matmul" "torch" "full"
      (.builtin "IndexError" "bad index")) = some .indexErr ∧
    RaisedOut.famOf (handle_exceptions_raise "matmul" "torch" "full"
      (.builtin "ValueError" "bad value")) = some .valueErr ∧
    IvyFam.indexErr ≠ IvyFam.valueErr ∧
    RaisedOut.nativeErrorOf (handle_exceptions_raise "matmul" "torch" "full"
      (.builtin "IndexError" "bad index")) = none := by
  refine ⟨rfl, rfl, by decide, rfl⟩

/-- The wrapper family the amended claim assigns to a native exception:
IndexError family to IvyIndexError, AttributeError family to
IvyAttributeError, ValueError family to IvyValueError, the specific ivy
exceptions to their own type, and everything else to IvyBackendException.
This definition follows the amended claim text and is compared against the
source boundary. -/
def famFor (e : PyExc) : IvyFam :=
  if isIvyErrExc e then .err
  else if isBroadcastExc e then .broadcastShapeErr
  else if isDtypePromotionExc e then .dtypePromotionErr
  else if isIndexExc e then .indexErr
  else if isAttributeExc e then .attributeErr
  else if isValueExc e then .valueErr
  else .backendExc

/-- The backend name as the combined message displays it: numpy when no
backend is set. -/
def displayBackend (b : String) : String :=
  if b == "" then "numpy" else b

/-- C5 (amended): for every wrapped operation and every exception raised
inside it other than IvyNotImplementedException, the boundary raises a
wrapper exception of the IvyException family selected by the exception class,
whose message records the backend, the operation name and the native message,
whose own native-error field is empty, and whose implicitly chained context
is the original exception; IvyNotImplementedException is re-raised
unchanged. -/
theorem c5_handle_exceptions_amended (fnName backendName traceMode : String)
    (e : PyExc) (h : isNotImplementedExc e = false) :
    handle_exceptions_raise fnName backendName traceMode e =
      .chained
        (.ivy (famFor e)
          (joinWith ": " [displayBackend backendName, fnName, strOfExc e])
          none)
        e ∧
    (∀ (m : String) (ne : Option PyExc),
      handle_exceptions_raise fnName backendName traceMode
        (.ivy .notImplemented m ne) = .sameExc (.ivy .notImplemented m ne)) := by
  constructor
  · have hw : ∀ fam : IvyFam,
        RaisedOut.chained (ivyExceptionInit fam
          [Msg.str fnName, Msg.str (strOfExc e)] true backendName traceMode) e =
        RaisedOut.chained (.ivy fam
          (joinWith ": " [displayBackend backendName, fnName, strOfExc e])
          none) e := fun _ => rfl
    unfold handle_exceptions_raise famFor
    rw [h]
    simp only [Bool.false_eq_true, if_false]
    split_ifs <;> exact hw _
  · intro m ne
    unfold handle_exceptions_raise
    rfl

/-- Witness for the amended C5 theorem at a concrete backend-native
exception. -/
theorem c5_handle_exceptions_amended_witness :
    handle_exceptions_raise "matmul" "torch" "" (.builtin "RuntimeError" "boom")
      = .chained (.ivy .backendExc "torch: matmul: boom" none)
          (.builtin "RuntimeError" "boom") := by
  have h := (c5_handle_exceptions_amended "matmul" "torch" ""
    (.builtin "RuntimeError" "boom") rfl).1
  simpa [famFor, isIvyErrExc, isBroadcastExc, isDtypePromotionExc, isIndexExc,
    isAttributeExc, isValueExc, joinWith, displayBackend, strOfExc] using h

/-- A constructed `ivy.Array` wrapper: the owned native payload and the
attributes cached at construction. -/
structure ArrVal where
  data : NativeArr
  cshape : List Nat
  cdtype : String
  cdevice : String
deriving DecidableEq, Repr

/-- The caching part of `Array.__init__` (`ivy/__init__.py` lines 70 to 73):
store the payload and cache its shape, dtype and device. -/
def mkWrapper (a : NativeArr) : ArrVal :=
  ⟨a, a.shape, a.dtypeName, a.device⟩

/-- `Array.__init__` (`ivy/__init__.py` lines 65 to 78): assert
`is_array(data)` — which holds exactly for backend-native values, see
`is_array_resolved` — then enable the process-wide wrapped-mode flag when it
is disabled, store the payload and cache shape, dtype and device.  The result
carries the constructed wrapper together with the wrapped-mode flag after
construction. -/
def Array_init (wrappedMode : Bool) (data : Val) :
    Except PyErr (ArrVal × Bool) :=
  match data with
  | .native a =>
    let newMode := if !wrappedMode then true else wrappedMode
    .ok (mkWrapper a, newMode)
  | _ => .error .assertionError

/-- `Variable.__init__` (`ivy/__init__.py` lines 349 to 351): assert
`is_variable(data)`, then run `Array.__init__`. -/
def Variable_init (wrappedMode : Bool) (data : Val) :
    Except PyErr (ArrVal × Bool) :=
  if is_variable data then Array_init wrappedMode data
  else .error .assertionError

/-- C6: wrapper construction validates its input — building an `Array` from a
value that is not backend-native-array-like fails with an assertion error
(and succeeds on native values), and building a `Variable` additionally fails
with an assertion error unless the backend reports the payload as
trainable. -/
theorem c6_constructor_validation :
    (∀ (w : Bool) (x : Val), is_native_array x = false →
      Array_init w x = .error .assertionError) ∧
    (∀ (w : Bool) (a : NativeArr), ∃ r, Array_init w (.native a) = .ok r) ∧
    (∀ (w : Bool) (x : Val), is_variable x = false →
      Variable_init w x = .error .assertionError) ∧
    (∀ (w : Bool) (a : NativeArr), a.trainable = true →
      ∃ r, Variable_init w (.native a) = .ok r) := by
  refine ⟨?_, ?_, ?_, ?_⟩
  · intro w x h
    match x with
    | .native a => simp [is_native_array] at h
    | .other t => rfl
    | .arr b d => rfl
    | .cont kvs => rfl
    | .vlist xs => rfl
    | .vtuple xs => rfl
    | .vdict kvs => rfl
  · intro w a
    exact ⟨(mkWrapper a, if !w then true else w), rfl⟩
  · intro w x h
    unfold Variable_init
    rw [h]
    rfl
  · intro w a h
    refine ⟨(mkWrapper a, if !w then true else w), ?_⟩
    unfold Variable_init
    simp [is_variable, h, Array_init]

/-- Witness for the C6 theorem at concrete inputs: a non-array value is
rejected by `Array.__init__`, a non-trainable native array is rejected by
`Variable.__init__`, and a trainable one is accepted. -/
theorem c6_constructor_validation_witness :
    Array_init false (.other 3) = .error .assertionError ∧
    Variable_init false (.native sampleArr) = .error .assertionError ∧
    Variable_init false (.native sampleVarArr) =
      .ok (mkWrapper sampleVarArr, true) :=
  ⟨c6_constructor_validation.1 false (.other 3) rfl,
   c6_constructor_validation.2.2.1 false (.native sampleArr) rfl,
   rfl⟩

/-- C7: constructing a wrapper while the process-wide wrapped-mode flag is
disabled enables it — after every successful `Array` construction the flag
is enabled. -/
theorem c7_wrapped_mode_side_effect (wrappedMode : Bool) (x : Val)
    (r : ArrVal) (newMode : Bool)
    (h : Array_init wrappedMode x = .ok (r, newMode)) : newMode = true := by
  match x with
  | .native a =>
    cases wrappedMode <;> simp [Array_init] at h <;> exact h.2
  | .other t => exact absurd h (by simp [Array_init])
  | .arr b d => exact absurd h (by simp [Array_init])
  | .cont kvs => exact absurd h (by simp [Array_init])
  | .vlist xs => exact absurd h (by simp [Array_init])
  | .vtuple xs => exact absurd h (by simp [Array_init])
  | .vdict kvs => exact absurd h (by simp [Array_init])

/-- Witness for the C7 theorem: a concrete construction in disabled
wrapped-mode ends with the flag enabled. -/
theorem c7_wrapped_mode_side_effect_witness :
    Array_init false (.native sampleArr) = .ok (mkWrapper sampleArr, true) ∧
    (true : Bool) = true :=
  ⟨rfl, c7_wrapped_mode_side_effect false (.native sampleArr)
    (mkWrapper sampleArr) true rfl⟩

/-- Modelled backend behavior: native in-place item assignment writes element
values and keeps shape, dtype and device (array storage is delegated to the
backends, which are external collaborators). -/
def native_setitem (a : NativeArr) (newVals : List Int) : NativeArr :=
  { a with vals := newVals }

/-- `Array.__setitem__` (`ivy/__init__.py` lines 132 to 133): delegate to the
item assignment of the payload itself; the payload is mutated in place and the cached
attributes are not touched. -/
def Array_setitem (w : ArrVal) (newVals : List Int) : ArrVal :=
  { w with data := native_setitem w.data newVals }

/-- Modelled backend elementwise addition: valuewise sum carrying the left
shape, dtype and device of the left operand. -/
def native_add (a b : NativeArr) : NativeArr :=
  { a with vals := List.zipWith (fun x y => x + y) a.vals b.vals }

/-- `Array.__add__` (`ivy/__init__.py` lines 161 to 166): convert the other
operand to native form, add natively, and return a new wrapper built over the
native result by `to_ivy`; the receiving wrapper is not modified. -/
def Array_add (w : ArrVal) (other : NativeArr) : ArrVal :=
  mkWrapper (native_add w.data other)

/-- The cached attributes agree with the owned native payload. -/
def cacheConsistent (w : ArrVal) : Bool :=
  w.cshape == w.data.shape && w.cdtype == w.data.dtypeName &&
    w.cdevice == w.data.device

/-- Folding in-place writes changes neither the cached attributes nor the
introspected shape, dtype and device of the payload. -/
theorem foldl_setitem_fields (writes : List (List Int)) (w : ArrVal) :
    (writes.foldl Array_setitem w).cshape = w.cshape ∧
    (writes.foldl Array_setitem w).cdtype = w.cdtype ∧
    (writes.foldl Array_setitem w).cdevice = w.cdevice ∧
    (writes.foldl Array_setitem w).data.shape = w.data.shape ∧
    (writes.foldl Array_setitem w).data.dtypeName = w.data.dtypeName ∧
    (writes.foldl Array_setitem w).data.device = w.data.device := by
  induction writes generalizing w with
  | nil => exact ⟨rfl, rfl, rfl, rfl, rfl, rfl⟩
  | cons v rest ih =>
    simpa [Array_setitem, native_setitem] using ih (Array_setitem w v)

/-- C8: shape, dtype and device are computed once at construction and
returned unchanged for the lifetime of the wrapper, staying consistent with the
owned native payload across any sequence of in-place writes; operations such
as addition return a new wrapper, itself built with consistent caches, and do
not modify the receiver. -/
theorem c8_cached_attributes (a : NativeArr) (writes : List (List Int)) :
    ((writes.foldl Array_setitem (mkWrapper a)).cshape = a.shape ∧
      (writes.foldl Array_setitem (mkWrapper a)).cdtype = a.dtypeName ∧
      (writes.foldl Array_setitem (mkWrapper a)).cdevice = a.device) ∧
    cacheConsistent (writes.foldl Array_setitem (mkWrapper a)) = true ∧
    (∀ b : NativeArr,
      Array_add (writes.foldl Array_setitem (mkWrapper a)) b =
        mkWrapper (native_add (writes.foldl Array_setitem (mkWrapper a)).data b) ∧
      cacheConsistent (Array_add (writes.foldl Array_setitem (mkWrapper a)) b)
        = true) := by
  obtain ⟨h1, h2, h3, h4, h5, h6⟩ := foldl_setitem_fields writes (mkWrapper a)
  simp only [mkWrapper] at h1 h2 h3 h4 h5 h6
  refine ⟨⟨h1, h2, h3⟩, ?_, ?_⟩
  · simp [cacheConsistent, h1, h2, h3, h4, h5, h6, mkWrapper]
  · intro b
    exact ⟨rfl, by simp [Array_add, mkWrapper, cacheConsistent]⟩

/-- Modelled from the spec: the Container tree of `ContainerBase`
(`ivy/container/base.py` is not under src/); spec 3: internal nodes are
ordered mappings from string key to child, leaves are arbitrary values. -/
inductive CTree where
  | leaf (v : Val)
  | node (kvs : List (String × CTree))

mutual

/-- Modelled from the spec: `Container.map` with no `key_chains` filter
(spec 4.5): visit every leaf depth-first in key order, apply
`fn(leaf, key_chain)` and rebuild the same tree.  `pre` is the list of keys
from the root to the current subtree. -/
def cmap (fn : Val → String → Val) (pre : List String) : CTree → CTree
  | .leaf v => .leaf (fn v (joinWith "/" pre))
  | .node kvs => .node (cmapKVs fn pre kvs)

/-- `Container.map` over the entries of a node, in key order. -/
def cmapKVs (fn : Val → String → Val) (pre : List String) :
    List (String × CTree) → List (String × CTree)
  | [] => []
  | (k, t) :: rest => (k, cmap fn (pre ++ [k]) t) :: cmapKVs fn pre rest

end

mutual

/-- The key-chains of a Container below a given path: the slash-joined paths
addressing every node and leaf position (spec 3). -/
def keyChains (pre : List String) : CTree → List String
  | .leaf _ => []
  | .node kvs => keyChainsKVs pre kvs

/-- Key-chains contributed by the entries of a node: each key position is
itself addressable, followed by the chains inside its subtree. -/
def keyChainsKVs (pre : List String) : List (String × CTree) → List String
  | [] => []
  | (k, t) :: rest =>
    (joinWith "/" (pre ++ [k]) :: keyChains (pre ++ [k]) t) ++
      keyChainsKVs pre rest

end

mutual

/-- `Container.map` keeps every key-chain, below any path. -/
theorem cmap_keyChains_aux (fn : Val → String → Val) (pre : List String)
    (t : CTree) : keyChains pre (cmap fn pre t) = keyChains pre t := by
  match t with
  | .leaf v => simp [cmap, keyChains]
  | .node kvs => simp [cmap, keyChains, cmapKVs_keyChains_aux fn pre kvs]

/-- `Container.map` keeps every key-chain of a node body. -/
theorem cmapKVs_keyChains_aux (fn : Val → String → Val) (pre : List String)
    (kvs : List (String × CTree)) :
    keyChainsKVs pre (cmapKVs fn pre kvs) = keyChainsKVs pre kvs := by
  match kvs with
  | [] => rfl
  | (k, t) :: rest =>
    simp [cmapKVs, keyChainsKVs, cmap_keyChains_aux fn (pre ++ [k]) t,
      cmapKVs_keyChains_aux fn pre rest]

end

/-- C9: Container map preserves key-chains — for every Container and every
leaf function, when no key-chain filter is supplied, `C.map(fn)` returns a
Container whose key-chain list (hence key-chain set) is identical to that of
C; map never reshapes the tree. -/
theorem c9_container_map_key_chains (fn : Val → String → Val) (C : CTree) :
    keyChains [] (cmap fn [] C) = keyChains [] C :=
  cmap_keyChains_aux fn [] C
